import Mathlib

/-!
A shallow embedding of the battery management controller (BMS.py) as pure
state-transition functions over rational voltages and temperatures, with
proofs of the specified safety and protocol properties.

Python floats are modelled as rationals, machine integers as Nat/Int, the
persistent NVM byte as a natural number, and the serial port as a list of
output byte values together with an optional input command per tick.
Blocking sleeps are timing only and have no state effect, so they are
dropped.  External sensor reads are inputs supplied fresh on every call.
-/

set_option allowUnsafeReducibility true

attribute [local semireducible] Rat.add Rat.mul Rat.sub Rat.inv Rat.ofScientific

/-- Round a rational to the nearest integer, ties to even
(the Python builtin round with one argument). -/
def pythonRound (q : ℚ) : ℤ :=
  if q - ⌊q⌋ < 1/2 then ⌊q⌋
  else if 1/2 < q - ⌊q⌋ then ⌊q⌋ + 1
  else if ⌊q⌋ % 2 = 0 then ⌊q⌋ else ⌊q⌋ + 1

/-- Python round(x, 2): round to two decimal places, ties to even. -/
def pythonRound2 (q : ℚ) : ℚ := (pythonRound (q * 100) : ℚ) / 100

/-- Python max over a list (the source only applies it to nonempty lists;
the default for the empty list is irrelevant). -/
def pyMax (l : List ℚ) : ℚ := l.foldl max (l.headD 0)

/-- Python min over a list. -/
def pyMin (l : List ℚ) : ℚ := l.foldl min (l.headD 0)

/-- Value of a decimal digit string (digits already validated). -/
def natOfDigits (l : List Char) : ℕ :=
  l.foldl (fun a c => 10 * a + (c.toNat - 48)) 0

/-- Unsigned decimal mantissa of a Python float literal:
digits, optionally a point (char 46) and more digits, at least one digit
in total.  Returns none exactly when Python float() would raise. -/
def parseMant (l : List Char) : Option ℚ :=
  let ip := l.takeWhile Char.isDigit
  let rest := l.dropWhile Char.isDigit
  match rest with
  | [] => if ip.isEmpty then none else some (natOfDigits ip)
  | c :: fp =>
    if c.toNat = 46 ∧ fp.all Char.isDigit = true ∧ (ip.isEmpty = false ∨ fp.isEmpty = false)
    then some ((natOfDigits ip : ℚ) + (natOfDigits fp : ℚ) / 10 ^ fp.length)
    else none

/-- Signed mantissa: optional leading minus (45) or plus (43). -/
def parseSigned (l : List Char) : Option ℚ :=
  match l with
  | [] => none
  | c :: r =>
    if c.toNat = 45 then (parseMant r).map Neg.neg
    else if c.toNat = 43 then parseMant r
    else parseMant l

/-- Signed decimal integer literal (the Python int constructor on a
string): optional sign then one or more digits. -/
def parseIntChars (l : List Char) : Option ℤ :=
  match l with
  | [] => none
  | c :: r =>
    if c.toNat = 45 then
      if r.isEmpty = false ∧ r.all Char.isDigit = true then some (-(natOfDigits r : ℤ)) else none
    else if c.toNat = 43 then
      if r.isEmpty = false ∧ r.all Char.isDigit = true then some ((natOfDigits r : ℤ)) else none
    else if l.all Char.isDigit = true ∧ l.isEmpty = false then some ((natOfDigits l : ℤ)) else none

/-- The Python float constructor on a string, modelled on decimal
literals with optional exponent (char 101 or 69).  Special spellings
(inf, nan, underscores, surrounding whitespace) are not representable
as exact rationals or not used by the protocol and parse to none. -/
def pyFloat (str : String) : Option ℚ :=
  let l := str.data
  let m := l.takeWhile (fun c => c.toNat ≠ 101 ∧ c.toNat ≠ 69)
  let rest := l.dropWhile (fun c => c.toNat ≠ 101 ∧ c.toNat ≠ 69)
  match rest with
  | [] => parseSigned m
  | _ :: ex =>
    match parseSigned m, parseIntChars ex with
    | some q, some e => some (q * 10 ^ e)
    | _, _ => none

/-- The Python int constructor on a string. -/
def pyInt (str : String) : Option ℤ := parseIntChars str.data

/-- The Python str of an integer, decimal notation. -/
def pyIntStr (i : ℤ) : String :=
  if i < 0 then "-" ++ Nat.repr i.natAbs else Nat.repr i.toNat

/-- Byte values of an ASCII string. -/
def strBytes (str : String) : List ℕ := str.data.map Char.toNat

/-- Value text right-padded with literal ASCII zero characters (48) to
width w, exactly as the source builds its fixed-width responses. -/
def pad0 (w : ℕ) (str : String) : List ℕ :=
  strBytes str ++ List.replicate (w - str.length) 48

/-- The full mutable state of the controller object, one field per
mutable Python attribute that the control logic reads or writes. -/
structure BMSState where
  mode : ℕ
  drain : List ℕ
  cells : List ℚ
  lastCells : List ℚ
  temps : List ℚ
  battVoltage : ℚ
  capacity : ℤ
  meanVoltage : ℚ
  minCell : ℚ
  maxCell : ℚ
  maxTemp : ℚ
  fanTrigger : ℚ
  minVoltage : ℚ
  maxVoltage : ℚ
  targetVoltage : ℚ
  dV : ℚ
  balTime : ℤ
  testBalCount : ℕ
  error : Bool
  verbose : Bool
  charging : Bool
  balancing : Bool
  buz : Bool
  relay : Bool
  fan : Bool
  nvm : ℕ
  uartOut : List ℕ

/-- Per-tick external inputs: ADC cell reads and temperature reads are
indexed by the call number within the tick (the retry loop and the
balance monitor loop sample repeatedly), plus at most one serial command
(header byte and remaining payload text) and the float-to-text rendering
of the host platform used for telemetry responses. -/
structure Env where
  cellRead : ℕ → List ℚ
  tempRead : ℕ → List ℚ
  cpuTemp : ℕ → ℚ
  uart : Option (ℕ × String)
  fstr : ℚ → String

/-- The fixed physical-channel permutation (self.cellPos). -/
def cellPos : List ℕ := [18, 15, 12, 6, 3, 9, 0, 7, 16, 13, 10, 19, 1, 4, 20, 17, 11, 5, 2, 14]

/-- The logical cell list obtained from one raw ADC batch through the
cellPos permutation. -/
def remap (read : List ℚ) : List ℚ :=
  (List.range 20).map fun i => read.getD (cellPos.getD i 0) 0

/-- BMS.getCells: remap one batch ADC read through cellPos and recompute
the aggregate snapshot (total, capacity, mean).  The status LED write is
external output only. -/
def getCells (read : List ℚ) (s : BMSState) : BMSState :=
  { s with
    cells := remap read
    battVoltage := (remap read).sum
    capacity := min (max (pythonRound ((100 / (84 - 68)) * ((remap read).sum - 68))) 0) 100
    meanVoltage := (remap read).sum / 20 }

/-- The temperature list BMS.getTemps computes: linear transform of each
raw sensor count, the MCU sensor appended, all rounded to 2 decimals. -/
def mkTemps (raw : List ℚ) (cpu : ℚ) : List ℚ :=
  ((raw.map fun v => (150 / (3/2)) * (v * (33/10) / 65536 - 1/2)) ++ [cpu]).map pythonRound2

/-- BMS.getTemps: recompute temperatures, drive the fan on a plain
threshold, and on max(temps) above maxTemp + 20 sound the buzzer, force
mode 2 and report the trigger to the caller. -/
def getTemps (raw : List ℚ) (cpu : ℚ) (s : BMSState) : BMSState × Bool :=
  let ts := mkTemps raw cpu
  let s1 := { s with temps := ts, fan := decide (s.fanTrigger < pyMax ts) }
  if s1.maxTemp + 20 < pyMax ts then ({ s1 with buz := true, mode := 2 }, true)
  else (s1, false)

/-- Descending stable sort of cell indices by voltage, the meaning of
sorted(key, reverse=True) in the source: a is placed before b exactly
when the voltage of b is not above the voltage of a, so equal voltages
keep their original relative order. -/
def sortDesc (v : List ℚ) (l : List ℕ) : List ℕ :=
  List.insertionSort (fun a b => v.getD b 0 ≤ v.getD a 0) l

/-- The sorted discharge-candidate list of BMS.balance: the indices of
the cells strictly above the target, highest voltage first. -/
def toDschg (t : ℚ) (s : BMSState) : List ℕ :=
  sortDesc s.cells ((List.range 20).filter fun i => t < s.cells.getD i 0)

/-- The cell-selection block of BMS.balance (lines 190 to 205): clear
the plan entry of every cell not strictly above the target, collect the
cells strictly above it, sort them by descending voltage, and mark the
first min(length, cellCount/2) of them for discharge. -/
def balanceSelect (t : ℚ) (s : BMSState) : BMSState :=
  let cleared := (List.range 20).foldl
    (fun d i => if t < s.cells.getD i 0 then d else d.set i 0) s.drain
  let count := min (toDschg t s).length 10
  { s with drain := ((toDschg t s).take count).foldl (fun d i => d.set i 1) cleared }

/-- The temperature-monitor loop inside BMS.balance (lines 228 to 233):
up to balTime // 8 fresh temperature reads, stopping early when the
maximum exceeds maxTemp.  The returned trigger flag is discarded there,
but the state effects of getTemps apply. -/
def balMonitor (tr : ℕ → List ℚ × ℚ) : ℕ → ℕ → BMSState → BMSState
  | _, 0, s => s
  | k, n + 1, s =>
    let p := getTemps (tr k).1 (tr k).2 s
    if p.1.maxTemp < pyMax p.1.temps then p.1
    else balMonitor tr (k + 1) n p.1

/-- The charge decision of BMS.balance (lines 167 to 174): close the
relay when the pack is low and no cell is within 0.05 V of the ceiling;
otherwise only record that charging is off (the relay is not opened
here). -/
def chargeStep (s : BMSState) : BMSState :=
  if (s.minCell < s.minVoltage ∨ s.meanVoltage < s.targetVoltage - s.dV / 2)
      ∧ s.maxCell < s.maxVoltage - 1/20
  then { s with charging := true, relay := true }
  else { s with charging := false }

/-- The balance decision of BMS.balance (lines 176 to 207): when the
spread exceeds dV or the mean is above target plus dV/2 and the lowest
cell is safe, pick the discharge target and run cell selection.  In the
target choice the final source fallback (mean not above targetVoltage)
is unreachable whenever minCell is at most maxCell, because the branch
condition then forces the elif test; the model takes the elif value. -/
def balanceStep (s : BMSState) : BMSState :=
  if (s.dV < s.maxCell - s.minCell ∨ s.targetVoltage + s.dV / 2 < s.meanVoltage)
      ∧ s.minVoltage < s.minCell
  then
    balanceSelect
      (if s.dV < s.maxCell - s.minCell then s.minCell + s.dV / 2 else s.targetVoltage)
      { s with balancing := true, testBalCount := 0 }
  else { s with balancing := false }

/-- The tail of BMS.balance (lines 209 to 236): with neither charging
nor balancing active, run the bounded settle confirmation and on its
fourth pass return to Idle; otherwise monitor temperature through the
balance window, then clear the plan and open the relay. -/
def settleStep (tr : ℕ → List ℚ × ℚ) (s : BMSState) : BMSState :=
  if s.balancing = false ∧ s.charging = false then
    if s.testBalCount < 4 then { s with testBalCount := s.testBalCount + 1 }
    else { s with buz := false, mode := 0, testBalCount := 0 }
  else
    { balMonitor tr 0 (s.balTime.fdiv 8).toNat s with
      drain := List.replicate 20 0, relay := false }

/-- BMS.balance: the abort guard, then the three blocks in source
order.  chargeStep touches only the charging flag and the relay, none
of the voltage fields the later conditions read, so the sequencing is
faithful to the source reading its own attributes. -/
def balance (tr : ℕ → List ℚ × ℚ) (s : BMSState) : BMSState :=
  if s.targetVoltage < s.minVoltage ∨ s.maxVoltage < s.targetVoltage then
    { s with buz := true, relay := false, mode := 0, drain := List.replicate 20 0 }
  else settleStep tr (balanceStep (chargeStep s))

/-- The per-cell deltas between a cell list and a baseline list
(dCells in BMS.update). -/
def dList (cells lastCells : List ℚ) : List ℚ :=
  (List.range 20).map fun i => cells.getD i 0 - lastCells.getD i 0

/-- The instability test of the measurement validator on explicit
lists: some cell moved by more than 0.05 volts in either direction. -/
def unstableL (cells lastCells : List ℚ) : Prop :=
  1/20 < pyMax (dList cells lastCells) ∨ pyMin (dList cells lastCells) < -(1/20)

instance (c lc : List ℚ) : Decidable (unstableL c lc) := by
  unfold unstableL; infer_instance

/-- The instability test as evaluated on the state. -/
def unstable (s : BMSState) : Prop := unstableL s.cells s.lastCells

instance (s : BMSState) : Decidable (unstable s) := by
  unfold unstable; infer_instance

/-- The instability test expressed on a raw ADC batch against a fixed
baseline: this is what one retry attempt observes, since getCells
rebuilds the cells entirely from the batch and the baseline is frozen
for the whole retry loop. -/
def unstableRead (read lastCells : List ℚ) : Prop :=
  unstableL (remap read) lastCells

instance (r lc : List ℚ) : Decidable (unstableRead r lc) := by
  unfold unstableRead; infer_instance

/-- The bounded measurement retry loop of BMS.update (lines 246 to 260):
up to n fresh reads; in mode 1 an unstable read sets the error flag and
retries, a stable one clears it and stops; outside mode 1 a single read
is taken and the error flag is left alone. -/
def retryLoop (cr : ℕ → List ℚ) : ℕ → ℕ → BMSState → BMSState
  | _, 0, s => s
  | k, n + 1, s =>
    let s1 := getCells (cr k) s
    if s1.mode = 1 then
      if unstable s1 then retryLoop cr (k + 1) n { s1 with error := true }
      else { s1 with error := false }
    else s1

/-- The voltage-limit scan of BMS.update (lines 280 to 286): any cell
above maxVoltage or below minVoltage forces mode 2. -/
def voltScan (s : BMSState) : BMSState :=
  let m := (List.range 20).foldl
    (fun m i =>
      if s.maxVoltage < s.cells.getD i 0 then 2
      else if s.cells.getD i 0 < s.minVoltage then 2 else m) s.mode
  { s with mode := m }

/-- The measurement and protection phase of BMS.update (lines 240 to
304), run only in modes 0 and 1.  The Bool is true when the source
returns early from update (measurement fault, voltage fault, or thermal
trigger), in which case the serial protocol is not serviced this tick. -/
def tickPhase1 (env : Env) (s : BMSState) : BMSState × Bool :=
  if s.mode = 0 ∨ s.mode = 1 then
    let s1 := retryLoop env.cellRead 0 4 s
    let s2 := if s1.error = true then { s1 with buz := true, nvm := 1, mode := 2 } else s1
    let s3 := { s2 with lastCells := s2.cells }
    if s3.mode = 2 then (s3, true)
    else
      let s4 := voltScan { s3 with buz := false }
      if s4.mode = 2 then ({ s4 with buz := false }, true)
      else
        let s5 := { s4 with minCell := pyMin s4.cells, maxCell := pyMax s4.cells }
        getTemps (env.tempRead 0) (env.cpuTemp 0) s5
  else (s, false)

/-- The mode-specific action of BMS.update (lines 306 to 317): balance
in mode 1 unless too hot, power down outputs in mode 2.  Temperature
reads inside balance continue the call numbering after the one taken by
tickPhase1. -/
def afterMeasure (env : Env) (s : BMSState) : BMSState :=
  if s.mode = 1 then
    if pyMax s.temps < s.maxTemp then
      balance (fun k => (env.tempRead (k + 1), env.cpuTemp (k + 1))) s
    else s
  else if s.mode = 2 then
    { s with buz := false, relay := false, drain := List.replicate 20 0 }
  else s

/-- Append bytes to the serial output. -/
def uartWrite (l : List ℕ) (s : BMSState) : BMSState :=
  { s with uartOut := s.uartOut ++ l }

/-- The write half of the serial protocol (BMS.update lines 325 to 368).
A payload that fails to parse raises ValueError in the source, reaching
the handler that executes uart.write(bytes(255)); in Python bytes(255)
is 255 zero bytes, modelled literally here. -/
def writeCmd (cmd : ℕ) (data : String) (s : BMSState) : BMSState :=
  if cmd = 128 then
    if data = "0" then { s with mode := 0 }
    else if data = "1" then { s with mode := 1 }
    else if data = "2" then { s with mode := 2 }
    else s
  else if cmd = 133 then
    match pyFloat data with
    | some v => { s with targetVoltage := v }
    | none => uartWrite (List.replicate 255 0) s
  else if cmd = 129 then
    match pyFloat data with
    | some v => { s with maxTemp := v }
    | none => uartWrite (List.replicate 255 0) s
  else if cmd = 130 then
    match pyFloat data with
    | some v => { s with fanTrigger := v }
    | none => uartWrite (List.replicate 255 0) s
  else if cmd = 131 then
    match pyFloat data with
    | some v => { s with minVoltage := v }
    | none => uartWrite (List.replicate 255 0) s
  else if cmd = 132 then
    match pyFloat data with
    | some v => { s with maxVoltage := v }
    | none => uartWrite (List.replicate 255 0) s
  else if cmd = 134 then
    match pyFloat data with
    | some v => { s with dV := v }
    | none => uartWrite (List.replicate 255 0) s
  else if cmd = 135 then
    match pyInt data with
    | some v => { s with balTime := v }
    | none => uartWrite (List.replicate 255 0) s
  else if cmd = 136 then { s with verbose := decide (data ≠ "") }
  else s

/-- The read half of the serial protocol (BMS.update lines 371 to 404):
float registers are padded on the right to 7 characters, each cell and
each temperature line gains a newline byte (10), the capacity is sent
as bare decimal text, the status register is one byte 49 or 48. -/
def readCmd (fstr : ℚ → String) (cmd : ℕ) (s : BMSState) : BMSState :=
  if cmd = 1 then uartWrite (pad0 7 (fstr s.battVoltage)) s
  else if cmd = 2 then uartWrite (strBytes (pyIntStr s.capacity)) s
  else if cmd = 3 then uartWrite (pad0 7 (fstr s.meanVoltage)) s
  else if cmd = 4 then
    uartWrite (s.cells.foldl (fun a c => a ++ pad0 7 (fstr c) ++ [10]) []) s
  else if cmd = 5 then
    uartWrite (s.temps.foldl (fun a c => a ++ pad0 5 (fstr c) ++ [10]) []) s
  else if cmd = 6 then uartWrite [if s.mode = 2 then 49 else 48] s
  else s

/-- One serial service step (BMS.update lines 320 to 408): at most one
command per tick; header bit 7 selects write or read. -/
def sercom (fstr : ℚ → String) (inp : Option (ℕ × String)) (s : BMSState) : BMSState :=
  match inp with
  | none => s
  | some (cmd, data) => if 128 ≤ cmd then writeCmd cmd data s else readCmd fstr cmd s

/-- BMS.update: one full tick. -/
def update (env : Env) (s : BMSState) : BMSState :=
  let p := tickPhase1 env s
  if p.2 then p.1 else sercom env.fstr env.uart (afterMeasure env p.1)

/-- BMS.__init__ with the hard-coded defaults: report and clear the
fault latch, take one initial cell read, and freeze it as the first
baseline.  The initial raw NVM byte and the number of external
temperature sensors are construction inputs. -/
def initState (read : List ℚ) (nvm0 ntmp : ℕ) : BMSState :=
  let base : BMSState :=
    { mode := 0, drain := List.replicate 24 0, cells := List.replicate 20 0,
      lastCells := [], temps := List.replicate ntmp 0,
      battVoltage := 0, capacity := 0, meanVoltage := 0, minCell := 0, maxCell := 0,
      maxTemp := 80, fanTrigger := 50, minVoltage := 17/5, maxVoltage := 17/4,
      targetVoltage := 77/20, dV := 1/100, balTime := 32, testBalCount := 0,
      error := false, verbose := false, charging := false, balancing := false,
      buz := false, relay := false, fan := false,
      nvm := if nvm0 = 1 then 0 else nvm0, uartOut := [] }
  let s := getCells read base
  { s with lastCells := s.cells }

/-- The startup fault-latch check (BMS.__init__ lines 106 to 108):
returns the NVM byte after the check and whether the alert was logged. -/
def startup (nvm : ℕ) : ℕ × Bool :=
  if nvm = 1 then (0, true) else (nvm, false)

/-- States reachable from a fresh controller by any sequence of ticks
with arbitrary sensor data and serial traffic. -/
inductive Reachable : BMSState → Prop
  | init (read : List ℚ) (nvm0 ntmp : ℕ) : Reachable (initState read nvm0 ntmp)
  | step (env : Env) (s : BMSState) : Reachable s → Reachable (update env s)

/-- Number of plan entries set true (the source stores 1 for true). -/
def onesCount (l : List ℕ) : ℕ := l.count 1

/-- A concrete healthy state used by the witnesses: all cells at 4 V,
defaults as in the constructor. -/
def s0 : BMSState :=
  { mode := 0, drain := List.replicate 24 0, cells := List.replicate 20 4,
    lastCells := List.replicate 20 4, temps := [0],
    battVoltage := 80, capacity := 75, meanVoltage := 4, minCell := 4, maxCell := 4,
    maxTemp := 80, fanTrigger := 50, minVoltage := 17/5, maxVoltage := 17/4,
    targetVoltage := 77/20, dV := 1/100, balTime := 32, testBalCount := 0,
    error := false, verbose := false, charging := false, balancing := false,
    buz := false, relay := false, fan := false, nvm := 0, uartOut := [] }

theorem getCells_mode (r : List ℚ) (s : BMSState) : (getCells r s).mode = s.mode := rfl

theorem getCells_lastCells (r : List ℚ) (s : BMSState) : (getCells r s).lastCells = s.lastCells := rfl

theorem getCells_error (r : List ℚ) (s : BMSState) : (getCells r s).error = s.error := rfl

theorem getCells_buz (r : List ℚ) (s : BMSState) : (getCells r s).buz = s.buz := rfl

theorem getCells_nvm (r : List ℚ) (s : BMSState) : (getCells r s).nvm = s.nvm := rfl

theorem getCells_drain (r : List ℚ) (s : BMSState) : (getCells r s).drain = s.drain := rfl

theorem getCells_cells (r : List ℚ) (s : BMSState) : (getCells r s).cells = remap r := rfl

theorem getTemps_drain (raw : List ℚ) (cpu : ℚ) (s : BMSState) :
    ((getTemps raw cpu s).1).drain = s.drain := by
  unfold getTemps; dsimp only; split <;> rfl

theorem getTemps_maxTemp (raw : List ℚ) (cpu : ℚ) (s : BMSState) :
    ((getTemps raw cpu s).1).maxTemp = s.maxTemp := by
  unfold getTemps; dsimp only; split <;> rfl

/-- Claim C7: for every telemetry read the capacity equals the clamped
rounded linear map of the total voltage, hence always lies in [0, 100].
clamp(x, 0, 100) is min(max(x, 0), 100), exactly as the source composes
it. -/
theorem capacity_clamped (read : List ℚ) (s : BMSState) :
    (getCells read s).capacity
      = min (max (pythonRound ((100 / (84 - 68)) * ((getCells read s).battVoltage - 68))) 0) 100
    ∧ 0 ≤ (getCells read s).capacity ∧ (getCells read s).capacity ≤ 100 := by
  exact ⟨rfl, le_min (le_max_right _ _) (by norm_num), min_le_right _ _⟩

/-- Claim C1: whenever a temperature measurement exceeds maxTemp + 20,
in whatever mode the controller is in at that moment, getTemps
immediately forces mode 2 (Shutdown), asserts the buzzer, and reports
the trigger, all within the same tick. -/
theorem thermal_shutdown (raw : List ℚ) (cpu : ℚ) (s : BMSState)
    (h : s.maxTemp + 20 < pyMax (mkTemps raw cpu)) :
    (getTemps raw cpu s).1.mode = 2 ∧ (getTemps raw cpu s).1.buz = true
      ∧ (getTemps raw cpu s).2 = true := by
  unfold getTemps; dsimp only; rw [if_pos h]; exact ⟨rfl, rfl, rfl⟩

/-- Witness for C1 at a concrete input: maxTemp lowered to -30, one MCU
reading of 0 degrees, so the hard ceiling -10 is exceeded. -/
theorem thermal_shutdown_witness :
    ({ s0 with maxTemp := -30 } : BMSState).maxTemp + 20 < pyMax (mkTemps [] 0)
      ∧ (getTemps [] 0 { s0 with maxTemp := -30 }).1.mode = 2 :=
  ⟨by decide, (thermal_shutdown [] 0 { s0 with maxTemp := -30 } (by decide)).1⟩

/-- Claim C3: with targetVoltage strictly outside [minVoltage,
maxVoltage] the balancing step aborts at its guard: buzzer on, relay
open, mode forced to 0 (Idle), plan cleared to all false entries, and
every other field (in particular the charge and balance decision flags)
untouched. -/
theorem balance_target_abort (tr : ℕ → List ℚ × ℚ) (s : BMSState)
    (h : s.targetVoltage < s.minVoltage ∨ s.maxVoltage < s.targetVoltage) :
    balance tr s
      = { s with buz := true, relay := false, mode := 0, drain := List.replicate 20 0 } := by
  unfold balance; rw [if_pos h]

/-- Witness for C3 at a concrete input: targetVoltage 5 above the
maximum 4.25. -/
theorem balance_target_abort_witness :
    (({ s0 with targetVoltage := 5 } : BMSState).targetVoltage
        < ({ s0 with targetVoltage := 5 } : BMSState).minVoltage
      ∨ ({ s0 with targetVoltage := 5 } : BMSState).maxVoltage
        < ({ s0 with targetVoltage := 5 } : BMSState).targetVoltage)
    ∧ (balance (fun _ => ([], 0)) { s0 with targetVoltage := 5 }).mode = 0
    ∧ (balance (fun _ => ([], 0)) { s0 with targetVoltage := 5 }).drain = List.replicate 20 0 := by
  refine ⟨by decide, ?_, ?_⟩ <;>
    rw [balance_target_abort (fun _ => ([], 0)) { s0 with targetVoltage := 5 } (by decide)]

/-- Claim C10: a write to the mode register whose payload is not
exactly the text 0, 1 or 2 leaves the whole state unchanged: the mode
keeps its value and no response byte of any kind (in particular no 255
sentinel) is queued. -/
theorem mode_write_ignored (fstr : ℚ → String) (s : BMSState) (data : String)
    (h0 : data ≠ "0") (h1 : data ≠ "1") (h2 : data ≠ "2") :
    sercom fstr (some (128, data)) s = s := by
  simp [sercom, writeCmd, h0, h1, h2]

/-- Witness for C10 at the concrete payload 3. -/
theorem mode_write_ignored_witness :
    ("3" ≠ "0" ∧ "3" ≠ "1" ∧ "3" ≠ "2")
      ∧ sercom (fun _ => "") (some (128, "3")) s0 = s0 :=
  ⟨by decide, mode_write_ignored (fun _ => "") s0 "3" (by decide) (by decide) (by decide)⟩

/-- Claim C4 (divergence): a write to register 129 (maxTemp) with the
unparsable payload abc leaves maxTemp and every other configuration
field unchanged and only appends a response, but the response the
source produces is bytes(255), which in Python is 255 bytes of value 0,
not the single byte of value 255 the documentation promises (compare
bytes([127]) used in the constructor for a genuine one-byte write). -/
theorem malformed_write_response (s : BMSState) :
    writeCmd 129 "abc" s = { s with uartOut := s.uartOut ++ List.replicate 255 0 }
    ∧ (writeCmd 129 "abc" s).maxTemp = s.maxTemp
    ∧ (writeCmd 129 "abc" s).uartOut ≠ s.uartOut ++ [255] := by
  have e : writeCmd 129 "abc" s = { s with uartOut := s.uartOut ++ List.replicate 255 0 } := rfl
  refine ⟨e, by rw [e], ?_⟩
  rw [e]
  intro heq
  have hl := congrArg List.length heq
  simp only [List.length_append, List.length_replicate, List.length_cons,
    List.length_nil] at hl
  omega

theorem onesCount_replicate_zero (n : ℕ) : onesCount (List.replicate n 0) = 0 := by
  unfold onesCount
  rw [List.count_eq_zero]
  simp

theorem onesCount_set_zero (l : List ℕ) (i : ℕ) :
    onesCount (l.set i 0) ≤ onesCount l := by
  induction l generalizing i with
  | nil => simp [onesCount]
  | cons x xs ih =>
    cases i with
    | zero => simp [onesCount, List.count_cons]
    | succ j =>
      simp only [List.set, onesCount, List.count_cons] at ih ⊢
      have := ih j
      omega

theorem onesCount_set_one (l : List ℕ) (i : ℕ) :
    onesCount (l.set i 1) ≤ onesCount l + 1 := by
  induction l generalizing i with
  | nil => simp [onesCount]
  | cons x xs ih =>
    cases i with
    | zero => simp [onesCount, List.count_cons]
    | succ j =>
      simp only [List.set, onesCount, List.count_cons] at ih ⊢
      have := ih j
      omega

theorem onesCount_clear_fold (c : ℕ → Prop) [DecidablePred c] :
    ∀ (L : List ℕ) (d : List ℕ),
      onesCount (L.foldl (fun d j => if c j then d else d.set j 0) d) ≤ onesCount d := by
  intro L
  induction L with
  | nil => intro d; exact le_refl _
  | cons j L ih =>
    intro d
    simp only [List.foldl_cons]
    by_cases h : c j
    · rw [if_pos h]; exact ih d
    · rw [if_neg h]; exact (ih (d.set j 0)).trans (onesCount_set_zero d j)

theorem onesCount_ones_fold :
    ∀ (L : List ℕ) (d : List ℕ),
      onesCount (L.foldl (fun d j => d.set j 1) d) ≤ onesCount d + L.length := by
  intro L
  induction L with
  | nil => intro d; simp
  | cons j L ih =>
    intro d
    simp only [List.foldl_cons, List.length_cons]
    have h1 := ih (d.set j 1)
    have h2 := onesCount_set_one d j
    omega

/-- Cell selection adds at most cellCount / 2 = 10 true entries to the
plan, whatever the prior plan and voltages. -/
theorem balanceSelect_onesCount (t : ℚ) (s : BMSState) :
    onesCount (balanceSelect t s).drain ≤ onesCount s.drain + 10 := by
  unfold balanceSelect
  dsimp only
  have h1 := onesCount_ones_fold
    ((toDschg t s).take (min (toDschg t s).length 10))
    ((List.range 20).foldl (fun d i => if t < s.cells.getD i 0 then d else d.set i 0) s.drain)
  have h2 := onesCount_clear_fold (fun i => t < s.cells.getD i 0) (List.range 20) s.drain
  have h3 : ((toDschg t s).take (min (toDschg t s).length 10)).length ≤ 10 := by
    rw [List.length_take]
    omega
  omega

theorem chargeStep_drain (s : BMSState) : (chargeStep s).drain = s.drain := by
  unfold chargeStep; split <;> rfl

theorem balanceSelect_balancing (t : ℚ) (s : BMSState) :
    (balanceSelect t s).balancing = s.balancing := rfl

theorem balanceSelect_charging (t : ℚ) (s : BMSState) :
    (balanceSelect t s).charging = s.charging := rfl

theorem balMonitor_drain (tr : ℕ → List ℚ × ℚ) :
    ∀ (n k : ℕ) (s : BMSState), (balMonitor tr k n s).drain = s.drain := by
  intro n
  induction n with
  | zero => intro k s; rfl
  | succ n ih =>
    intro k s
    unfold balMonitor
    dsimp only
    split
    · exact getTemps_drain _ _ _
    · rw [ih]; exact getTemps_drain _ _ _

/-- The settle tail either leaves the plan alone (confirmation path) or
clears it to 20 false slots (end of a charge or balance window). -/
theorem settleStep_drain (tr : ℕ → List ℚ × ℚ) (s : BMSState) :
    (settleStep tr s).drain = s.drain ∨ (settleStep tr s).drain = List.replicate 20 0 := by
  unfold settleStep
  split
  · split
    · left; rfl
    · left; rfl
  · right; rfl

/-- The balance step either leaves the plan alone or ends the tick with
the plan cleared to 20 false slots. -/
theorem balance_drain (tr : ℕ → List ℚ × ℚ) (s : BMSState) :
    (balance tr s).drain = s.drain ∨ (balance tr s).drain = List.replicate 20 0 := by
  unfold balance
  split
  · right; rfl
  · unfold balanceStep
    split
    · -- selection ran: balancing is true, so settleStep clears the plan
      right
      unfold settleStep
      have hb : ∀ t : ℚ,
          ¬ ((balanceSelect t { chargeStep s with balancing := true, testBalCount := 0 }).balancing = false
            ∧ (balanceSelect t { chargeStep s with balancing := true, testBalCount := 0 }).charging = false) := by
        intro t hc
        have h1 := hc.1
        rw [balanceSelect_balancing] at h1
        exact absurd h1 (by simp)
      rw [if_neg (hb _)]
    · -- no selection: the plan passes through settleStep untouched or cleared
      rcases settleStep_drain tr { chargeStep s with balancing := false } with h | h
      · left; rw [h]; exact chargeStep_drain s
      · right; exact h

theorem retryLoop_drain (cr : ℕ → List ℚ) :
    ∀ (n k : ℕ) (s : BMSState), (retryLoop cr k n s).drain = s.drain := by
  intro n
  induction n with
  | zero => intro k s; rfl
  | succ n ih =>
    intro k s
    unfold retryLoop
    dsimp only
    split
    · split
      · rw [ih]; exact getCells_drain (cr k) s
      · exact getCells_drain (cr k) s
    · exact getCells_drain (cr k) s

theorem voltScan_drain (s : BMSState) : (voltScan s).drain = s.drain := rfl

theorem tickPhase1_drain (env : Env) (s : BMSState) :
    ((tickPhase1 env s).1).drain = s.drain := by
  unfold tickPhase1
  dsimp only
  split
  · (repeat' split) <;>
      simp [retryLoop_drain, voltScan_drain, getTemps_drain, voltScan]
  · rfl

theorem writeCmd_drain (cmd : ℕ) (data : String) (s : BMSState) :
    (writeCmd cmd data s).drain = s.drain := by
  delta writeCmd
  by_cases h1 : cmd = 128
  · rw [if_pos h1]
    by_cases d0 : data = "0"
    · rw [if_pos d0]
    · rw [if_neg d0]
      by_cases d1 : data = "1"
      · rw [if_pos d1]
      · rw [if_neg d1]
        by_cases d2 : data = "2"
        · rw [if_pos d2]
        · rw [if_neg d2]
  · rw [if_neg h1]
    by_cases h2 : cmd = 133
    · rw [if_pos h2]; cases pyFloat data <;> rfl
    · rw [if_neg h2]
      by_cases h3 : cmd = 129
      · rw [if_pos h3]; cases pyFloat data <;> rfl
      · rw [if_neg h3]
        by_cases h4 : cmd = 130
        · rw [if_pos h4]; cases pyFloat data <;> rfl
        · rw [if_neg h4]
          by_cases h5 : cmd = 131
          · rw [if_pos h5]; cases pyFloat data <;> rfl
          · rw [if_neg h5]
            by_cases h6 : cmd = 132
            · rw [if_pos h6]; cases pyFloat data <;> rfl
            · rw [if_neg h6]
              by_cases h7 : cmd = 134
              · rw [if_pos h7]; cases pyFloat data <;> rfl
              · rw [if_neg h7]
                by_cases h8 : cmd = 135
                · rw [if_pos h8]; cases pyInt data <;> rfl
                · rw [if_neg h8]
                  by_cases h9 : cmd = 136
                  · rw [if_pos h9]
                  · rw [if_neg h9]

theorem readCmd_drain (fstr : ℚ → String) (cmd : ℕ) (s : BMSState) :
    (readCmd fstr cmd s).drain = s.drain := by
  delta readCmd
  by_cases h1 : cmd = 1
  · rw [if_pos h1]; rfl
  · rw [if_neg h1]
    by_cases h2 : cmd = 2
    · rw [if_pos h2]; rfl
    · rw [if_neg h2]
      by_cases h3 : cmd = 3
      · rw [if_pos h3]; rfl
      · rw [if_neg h3]
        by_cases h4 : cmd = 4
        · rw [if_pos h4]; rfl
        · rw [if_neg h4]
          by_cases h5 : cmd = 5
          · rw [if_pos h5]; rfl
          · rw [if_neg h5]
            by_cases h6 : cmd = 6
            · rw [if_pos h6]; rfl
            · rw [if_neg h6]

theorem sercom_drain (fstr : ℚ → String) (inp : Option (ℕ × String)) (s : BMSState) :
    (sercom fstr inp s).drain = s.drain := by
  unfold sercom
  rcases inp with _ | ⟨cmd, data⟩
  · rfl
  · dsimp only
    split
    · exact writeCmd_drain _ _ _
    · exact readCmd_drain _ _ _

theorem afterMeasure_drain (env : Env) (s : BMSState) :
    (afterMeasure env s).drain = s.drain
      ∨ (afterMeasure env s).drain = List.replicate 20 0 := by
  unfold afterMeasure
  split
  · split
    · exact balance_drain _ _
    · left; rfl
  · split
    · right; rfl
    · left; rfl

/-- One tick either leaves the plan alone or reallocates it to 20 false
slots; it never ends a tick with a true entry in the plan. -/
theorem update_drain (env : Env) (s : BMSState) :
    (update env s).drain = s.drain ∨ (update env s).drain = List.replicate 20 0 := by
  unfold update
  dsimp only
  split
  · left; exact tickPhase1_drain env s
  · rw [sercom_drain]
    rcases afterMeasure_drain env (tickPhase1 env s).1 with h | h
    · left; rw [h]; exact tickPhase1_drain env s
    · right; exact h

/-- Every reachable tick-boundary state carries either the pristine
24-slot all-false plan from the constructor or a 20-slot all-false
plan from one of the clearing sites. -/
theorem reachable_drain (s : BMSState) (h : Reachable s) :
    s.drain = List.replicate 24 0 ∨ s.drain = List.replicate 20 0 := by
  induction h with
  | init read nvm0 ntmp => left; rfl
  | step env s1 _ ih =>
    rcases update_drain env s1 with h1 | h1
    · rw [h1]; exact ih
    · right; exact h1

/-- A tick whose only event is the host writing mode register 128 with
payload 2. -/
def envW2 : Env :=
  { cellRead := fun _ => List.replicate 21 4, tempRead := fun _ => [],
    cpuTemp := fun _ => 0, uart := some (128, "2"), fstr := fun _ => "" }

/-- A quiet tick: healthy cells, cool board, no serial traffic. -/
def envIdle : Env :=
  { cellRead := fun _ => List.replicate 21 4, tempRead := fun _ => [],
    cpuTemp := fun _ => 0, uart := none, fstr := fun _ => "" }

/-- Claim C2: in every reachable state the drain plan has at most
cellCount / 2 = 10 true entries, and this still holds immediately after
cell selection inside balance, for every possible discharge target
(hence for every input voltage distribution), and across consecutive
ticks since Reachable is closed under update. -/
theorem drain_concurrency_cap (s : BMSState) (h : Reachable s) :
    onesCount s.drain ≤ 10
      ∧ (∀ t : ℚ, onesCount (balanceSelect t s).drain ≤ 10)
      ∧ (∀ env : Env, onesCount (update env s).drain ≤ 10) := by
  have h0 : onesCount s.drain = 0 := by
    rcases reachable_drain s h with h1 | h1 <;> rw [h1] <;> exact onesCount_replicate_zero _
  refine ⟨by omega, fun t => ?_, fun env => ?_⟩
  · have := balanceSelect_onesCount t s
    omega
  · rcases reachable_drain _ (Reachable.step env s h) with h1 | h1 <;> rw [h1] <;>
      rw [onesCount_replicate_zero] <;> omega

/-- Witness for C2 at the freshly constructed state and target 4 V. -/
theorem drain_concurrency_cap_witness :
    onesCount (initState (List.replicate 21 4) 0 1).drain ≤ 10
      ∧ onesCount (balanceSelect 4 (initState (List.replicate 21 4) 0 1)).drain ≤ 10
      ∧ onesCount (update envIdle (initState (List.replicate 21 4) 0 1)).drain ≤ 10 :=
  ⟨(drain_concurrency_cap _ (Reachable.init _ _ _)).1,
   (drain_concurrency_cap _ (Reachable.init _ _ _)).2.1 4,
   (drain_concurrency_cap _ (Reachable.init _ _ _)).2.2 envIdle⟩

/-- Claim C9 counterexample: after the host writes mode 2 and one
Shutdown tick runs, the reachable state holds a 20-slot plan, not the
24-slot plan the claim promises in every reachable state (the clearing
sites execute drain = [0] * cellCount with cellCount = 20). -/
theorem drain_24_slots_cex :
    Reachable (update envIdle (update envW2 (initState (List.replicate 21 4) 0 1)))
      ∧ ((update envIdle (update envW2 (initState (List.replicate 21 4) 0 1))).drain).length ≠ 24 :=
  ⟨Reachable.step _ _ (Reachable.step _ _ (Reachable.init _ _ _)), by decide⟩

/-- Claim C9 amended: the plan holds 24 slots at construction, with the
4 slots beyond the cell count false (all 24 are false); every clearing
site however reallocates it to 20 slots, so a reachable tick-boundary
state holds either the pristine all-false 24-slot plan or an all-false
20-slot plan. -/
theorem drain_slots (read : List ℚ) (nvm0 ntmp : ℕ) (s : BMSState) (h : Reachable s) :
    (initState read nvm0 ntmp).drain = List.replicate 24 0
      ∧ (s.drain = List.replicate 24 0 ∨ s.drain = List.replicate 20 0) :=
  ⟨rfl, reachable_drain s h⟩

/-- Witness for C9 at the freshly constructed state. -/
theorem drain_slots_witness :
    (initState [] 0 0).drain = List.replicate 24 0
      ∧ ((initState [] 0 0).drain = List.replicate 24 0
        ∨ (initState [] 0 0).drain = List.replicate 20 0) :=
  drain_slots [] 0 0 (initState [] 0 0) (Reachable.init [] 0 0)

/-- Under mode 1 with every one of the first n reads unstable against
the frozen baseline, the retry loop exhausts its budget with the error
flag set, leaving mode, buzzer, NVM and baseline untouched. -/
theorem retryLoop_all_unstable (cr : ℕ → List ℚ) :
    ∀ (n k : ℕ) (s : BMSState), s.mode = 1 →
      (∀ j, j < n → unstableRead (cr (k + j)) s.lastCells) →
      (retryLoop cr k n s).mode = 1
        ∧ (retryLoop cr k n s).buz = s.buz
        ∧ (retryLoop cr k n s).nvm = s.nvm
        ∧ (retryLoop cr k n s).lastCells = s.lastCells
        ∧ (retryLoop cr k n s).error = (if n = 0 then s.error else true) := by
  intro n
  induction n with
  | zero =>
    intro k s hm _
    refine ⟨hm, rfl, rfl, rfl, ?_⟩
    rw [if_pos rfl]
    rfl
  | succ n ih =>
    intro k s hm hj
    unfold retryLoop
    dsimp only
    have hm1 : (getCells (cr k) s).mode = 1 := by rw [getCells_mode]; exact hm
    have hu : unstable (getCells (cr k) s) := by
      have h0 := hj 0 (Nat.succ_pos n)
      rw [Nat.add_zero] at h0
      exact h0
    rw [if_pos hm1, if_pos hu]
    have hm2 : ({ getCells (cr k) s with error := true } : BMSState).mode = 1 := hm1
    have hj2 : ∀ j, j < n →
        unstableRead (cr (k + 1 + j)) ({ getCells (cr k) s with error := true } : BMSState).lastCells := by
      intro j hjn
      have hx := hj (j + 1) (Nat.succ_lt_succ hjn)
      have he : k + (j + 1) = k + 1 + j := by omega
      rw [he] at hx
      exact hx
    rcases ih (k + 1) { getCells (cr k) s with error := true } hm2 hj2 with ⟨a, b, c, d, e⟩
    refine ⟨a, ?_, ?_, ?_, ?_⟩
    · rw [b]; exact getCells_buz (cr k) s
    · rw [c]; exact getCells_nvm (cr k) s
    · rw [d]; exact getCells_lastCells (cr k) s
    · rw [e]; split <;> simp

theorem update_early (env : Env) (s : BMSState) (h : (tickPhase1 env s).2 = true) :
    update env s = (tickPhase1 env s).1 := by
  unfold update
  dsimp only
  rw [if_pos h]

/-- Claim C5: in Active mode, when every one of the 4 bounded retry
attempts within one tick observes a per-cell delta above +0.05 or below
-0.05 volts, the tick ends with the persistent fault latch byte at 1,
the buzzer asserted, and the mode forced to 2 (Shutdown); a subsequent
startup with the latch set reports the fault and clears the byte, and a
second startup reports nothing more, so the fault is reported and
cleared exactly once. -/
theorem measurement_fault_latch (env : Env) (s : BMSState)
    (hm : s.mode = 1)
    (hu : ∀ j, j < 4 → unstableRead (env.cellRead j) s.lastCells) :
    (update env s).mode = 2 ∧ (update env s).buz = true ∧ (update env s).nvm = 1
      ∧ startup (update env s).nvm = (0, true)
      ∧ startup (startup (update env s).nvm).1 = (0, false) := by
  have hu0 : ∀ j, j < 4 → unstableRead (env.cellRead (0 + j)) s.lastCells := by
    intro j hj
    rw [Nat.zero_add]
    exact hu j hj
  rcases retryLoop_all_unstable env.cellRead 4 0 s hm hu0 with ⟨_, _, _, _, e⟩
  rw [if_neg (by omega : ¬ (4:ℕ) = 0)] at e
  have ht2 : (tickPhase1 env s).2 = true := by
    unfold tickPhase1
    dsimp only
    rw [if_pos (Or.inr hm), if_pos e]
    rfl
  have hres : update env s
      = { { retryLoop env.cellRead 0 4 s with buz := true, nvm := 1, mode := 2 } with
          lastCells := ({ retryLoop env.cellRead 0 4 s with
            buz := true, nvm := 1, mode := 2 } : BMSState).cells } := by
    rw [update_early env s ht2]
    unfold tickPhase1
    dsimp only
    rw [if_pos (Or.inr hm), if_pos e]
    rfl
  rw [hres]
  exact ⟨rfl, rfl, rfl, rfl, rfl⟩

/-- A tick whose four cell reads all jump to 8 V from the 4 V
baseline. -/
def envNoisy : Env :=
  { cellRead := fun _ => List.replicate 21 8, tempRead := fun _ => [],
    cpuTemp := fun _ => 0, uart := none, fstr := fun _ => "" }

set_option maxRecDepth 8000 in
/-- Witness for C5 at a concrete noisy tick from a healthy Active
state. -/
theorem measurement_fault_latch_witness :
    ({ s0 with mode := 1 } : BMSState).mode = 1
      ∧ (update envNoisy { s0 with mode := 1 }).mode = 2
      ∧ (update envNoisy { s0 with mode := 1 }).nvm = 1 :=
  ⟨rfl,
   (measurement_fault_latch envNoisy { s0 with mode := 1 } rfl
     (fun _ _ => (by decide : unstableRead (List.replicate 21 8) (List.replicate 20 4)))).1,
   (measurement_fault_latch envNoisy { s0 with mode := 1 } rfl
     (fun _ _ => (by decide : unstableRead (List.replicate 21 8) (List.replicate 20 4)))).2.2.1⟩

theorem getD_set_ne (v : ℕ) : ∀ (l : List ℕ) (i j : ℕ), i ≠ j →
    (l.set i v).getD j 0 = l.getD j 0 := by
  intro l
  induction l with
  | nil => intro i j _; rfl
  | cons x xs ih =>
    intro i j hij
    cases i with
    | zero =>
      cases j with
      | zero => exact absurd rfl hij
      | succ j2 => rfl
    | succ i2 =>
      cases j with
      | zero => rfl
      | succ j2 => exact ih i2 j2 (fun he => hij (by rw [he]))

theorem getD_set_zero_self : ∀ (l : List ℕ) (i : ℕ), (l.set i 0).getD i 0 = 0 := by
  intro l
  induction l with
  | nil => intro i; cases i <;> rfl
  | cons x xs ih =>
    intro i
    cases i with
    | zero => rfl
    | succ i2 => exact ih i2

theorem getD_set_one_self : ∀ (l : List ℕ) (i : ℕ), i < l.length →
    (l.set i 1).getD i 0 = 1 := by
  intro l
  induction l with
  | nil => intro i h; exact absurd h (by simp)
  | cons x xs ih =>
    intro i h
    cases i with
    | zero => rfl
    | succ i2 => exact ih i2 (by simpa using h)

theorem clear_fold_stays_zero (v : List ℚ) (t : ℚ) :
    ∀ (L : List ℕ) (d : List ℕ) (i : ℕ), d.getD i 0 = 0 →
      (L.foldl (fun d j => if t < v.getD j 0 then d else d.set j 0) d).getD i 0 = 0 := by
  intro L
  induction L with
  | nil => intro d i h; exact h
  | cons j L ih =>
    intro d i h
    simp only [List.foldl_cons]
    by_cases hc : t < v.getD j 0
    · rw [if_pos hc]; exact ih d i h
    · rw [if_neg hc]
      by_cases hij : j = i
      · subst hij; exact ih _ j (getD_set_zero_self d j)
      · exact ih _ i (by rw [getD_set_ne 0 d j i hij]; exact h)

theorem clear_fold_getD (v : List ℚ) (t : ℚ) :
    ∀ (L : List ℕ) (d : List ℕ) (i : ℕ), i ∈ L → ¬ t < v.getD i 0 →
      (L.foldl (fun d j => if t < v.getD j 0 then d else d.set j 0) d).getD i 0 = 0 := by
  intro L
  induction L with
  | nil => intro d i h _; exact absurd h (by simp)
  | cons j L ih =>
    intro d i hmem hv
    simp only [List.foldl_cons]
    by_cases hij : i = j
    · subst hij
      rw [if_neg hv]
      exact clear_fold_stays_zero v t L _ i (getD_set_zero_self d i)
    · have hmem2 : i ∈ L := by
        rcases List.mem_cons.mp hmem with h | h
        · exact absurd h hij
        · exact h
      by_cases hc : t < v.getD j 0
      · rw [if_pos hc]; exact ih d i hmem2 hv
      · rw [if_neg hc]; exact ih _ i hmem2 hv

theorem ones_fold_getD_notmem :
    ∀ (L : List ℕ) (d : List ℕ) (i : ℕ), i ∉ L →
      (L.foldl (fun d j => d.set j 1) d).getD i 0 = d.getD i 0 := by
  intro L
  induction L with
  | nil => intro d i _; rfl
  | cons j L ih =>
    intro d i hmem
    simp only [List.foldl_cons]
    have hij : j ≠ i := fun he => hmem (by rw [he]; exact List.mem_cons_self _ _)
    rw [ih _ i (fun hm => hmem (List.mem_cons_of_mem _ hm)), getD_set_ne 1 d j i hij]

theorem ones_fold_length :
    ∀ (L : List ℕ) (d : List ℕ), (L.foldl (fun d j => d.set j 1) d).length = d.length := by
  intro L
  induction L with
  | nil => intro d; rfl
  | cons j L ih => intro d; simp only [List.foldl_cons]; rw [ih, List.length_set]

theorem clear_fold_length (v : List ℚ) (t : ℚ) :
    ∀ (L : List ℕ) (d : List ℕ),
      (L.foldl (fun d j => if t < v.getD j 0 then d else d.set j 0) d).length = d.length := by
  intro L
  induction L with
  | nil => intro d; rfl
  | cons j L ih =>
    intro d
    simp only [List.foldl_cons]
    by_cases hc : t < v.getD j 0
    · rw [if_pos hc, ih]
    · rw [if_neg hc, ih, List.length_set]

theorem ones_fold_getD_mem :
    ∀ (L : List ℕ) (d : List ℕ) (i : ℕ), i ∈ L → i < d.length →
      (L.foldl (fun d j => d.set j 1) d).getD i 0 = 1 := by
  intro L
  induction L with
  | nil => intro d i h _; exact absurd h (by simp)
  | cons j L ih =>
    intro d i hmem hlen
    simp only [List.foldl_cons]
    by_cases hmem2 : i ∈ L
    · exact ih _ i hmem2 (by rw [List.length_set]; exact hlen)
    · have hij : i = j := by
        rcases List.mem_cons.mp hmem with h | h
        · exact h
        · exact absurd h hmem2
      subst hij
      rw [ones_fold_getD_notmem L _ i hmem2]
      exact getD_set_one_self d i hlen

/-- The sort in cell selection is a permutation of the collected
candidates. -/
theorem sortDesc_perm (v : List ℚ) (l : List ℕ) : List.Perm (sortDesc v l) l :=
  List.perm_insertionSort _ l

/-- The sort in cell selection orders candidates by non-increasing
voltage. -/
theorem sortDesc_sorted (v : List ℚ) (l : List ℕ) :
    (sortDesc v l).Sorted (fun a b => v.getD b 0 ≤ v.getD a 0) := by
  haveI : IsTotal ℕ (fun a b => v.getD b 0 ≤ v.getD a 0) := ⟨fun _ _ => le_total _ _⟩
  haveI : IsTrans ℕ (fun a b => v.getD b 0 ≤ v.getD a 0) :=
    ⟨fun _ _ _ hab hbc => le_trans hbc hab⟩
  exact List.sorted_insertionSort _ l

/-- Stability of the sort: a pair already in sorted relative position
(in particular a tie) keeps its original relative order. -/
theorem sortDesc_stable (v : List ℚ) (l : List ℕ) (a b : ℕ)
    (hab : v.getD b 0 ≤ v.getD a 0) (h : List.Sublist [a, b] l) :
    List.Sublist [a, b] (sortDesc v l) :=
  List.pair_sublist_insertionSort hab h

/-- The cell list of the specified balancing scenario: 19 cells at
4.20 V and one at 3.50 V. -/
def scenarioCells : List ℚ := List.replicate 19 (21/5) ++ [7/2]

/-- The specified balancing scenario in Active mode with the default
configuration (dV = 0.01, targetVoltage = 3.85), after the tick has
computed the aggregates the way update does before calling balance. -/
def scenario : BMSState :=
  { s0 with
    cells := scenarioCells
    mode := 1
    minCell := 7/2
    maxCell := 21/5
    meanVoltage := 833/200 }

/-- Claim C6: cell selection collects exactly the cells strictly above
the chosen target (the candidate list is a permutation of the filter),
orders them by descending voltage with ties keeping original index
order (stable sort), marks at most cellCount / 2 = 10 of them, and
explicitly clears the plan entry of every cell at or below the target.
In the concrete scenario of 19 cells at 4.20 V and one at 3.50 V with
dV = 0.01 and targetVoltage = 3.85, the spread branch fires with
target 3.505 V, the ten selected cells are all 4.20 V cells (indices 0
to 9) and the 3.50 V cell (index 19) is cleared, not selected. -/
theorem select_cells :
    (∀ (t : ℚ) (s : BMSState), 20 ≤ s.drain.length →
      List.Perm (toDschg t s) ((List.range 20).filter fun i => t < s.cells.getD i 0)
      ∧ (toDschg t s).Sorted (fun a b => s.cells.getD b 0 ≤ s.cells.getD a 0)
      ∧ (∀ a b : ℕ, s.cells.getD a 0 = s.cells.getD b 0 →
          List.Sublist [a, b] ((List.range 20).filter fun i => t < s.cells.getD i 0) →
          List.Sublist [a, b] (toDschg t s))
      ∧ ((toDschg t s).take (min (toDschg t s).length 10)).length ≤ 10
      ∧ (∀ i, i < 20 → ¬ t < s.cells.getD i 0 → (balanceSelect t s).drain.getD i 0 = 0)
      ∧ (∀ i, i ∈ (toDschg t s).take (min (toDschg t s).length 10) →
          (balanceSelect t s).drain.getD i 0 = 1))
    ∧ scenario.dV < scenario.maxCell - scenario.minCell
    ∧ scenario.minCell + scenario.dV / 2 = 701/200
    ∧ (balanceStep (chargeStep scenario)).drain = List.replicate 10 1 ++ List.replicate 14 0
    ∧ (∀ i, i < 10 → scenario.cells.getD i 0 = 21/5)
    ∧ scenario.cells.getD 19 0 = 7/2
    ∧ (balanceStep (chargeStep scenario)).drain.getD 19 0 = 0 := by
  refine ⟨fun t s hd => ⟨sortDesc_perm _ _, sortDesc_sorted _ _, ?_, ?_, ?_, ?_⟩,
    by decide, by decide, by decide, by decide, by decide, by decide⟩
  · intro a b hv hsub
    exact sortDesc_stable s.cells _ a b (le_of_eq hv.symm) hsub
  · rw [List.length_take]; omega
  · intro i hi hv
    unfold balanceSelect
    dsimp only
    have hnot : i ∉ (toDschg t s).take (min (toDschg t s).length 10) := by
      intro hmem
      have h2 : i ∈ toDschg t s := List.mem_of_mem_take hmem
      have h3 : i ∈ (List.range 20).filter fun j => decide (t < s.cells.getD j 0) :=
        ((sortDesc_perm s.cells _).mem_iff).mp h2
      exact hv (of_decide_eq_true (List.mem_filter.mp h3).2)
    rw [ones_fold_getD_notmem _ _ i hnot]
    exact clear_fold_getD s.cells t (List.range 20) s.drain i (List.mem_range.mpr hi) hv
  · intro i hmem
    unfold balanceSelect
    dsimp only
    have h2 : i ∈ toDschg t s := List.mem_of_mem_take hmem
    have h3 : i ∈ (List.range 20).filter fun j => decide (t < s.cells.getD j 0) :=
      ((sortDesc_perm s.cells _).mem_iff).mp h2
    have hi20 : i < 20 := List.mem_range.mp (List.mem_filter.mp h3).1
    exact ones_fold_getD_mem _ _ i hmem (by rw [clear_fold_length]; omega)

/-- Witness for C6 at concrete inputs: the fresh plan is long enough,
and with all cells at 4 V and target 4 V no cell is above target, so
entry 0 is cleared. -/
theorem select_cells_witness :
    20 ≤ s0.drain.length ∧ (balanceSelect 4 s0).drain.getD 0 0 = 0 :=
  ⟨by decide, (select_cells.1 4 s0 (by decide)).2.2.2.2.1 0 (by decide) (by decide)⟩

theorem strBytes_length (str : String) : (strBytes str).length = str.length := by
  rw [strBytes, List.length_map]
  rfl

theorem pad0_length (w : ℕ) (str : String) : (pad0 w str).length = max w str.length := by
  simp only [pad0, List.length_append, List.length_replicate, strBytes_length]
  omega

theorem foldl_resp_length (f : ℚ → List ℕ) :
    ∀ (l : List ℚ) (init : List ℕ),
      (l.foldl (fun a c => a ++ f c ++ [10]) init).length
        = init.length + (l.map fun c => (f c).length + 1).sum := by
  intro l
  induction l with
  | nil => intro init; simp
  | cons c l ih =>
    intro init
    simp only [List.foldl_cons, List.map_cons, List.sum_cons]
    rw [ih]
    simp [List.length_append]
    omega

theorem sum_map_const (g : ℚ → ℕ) (k : ℕ) :
    ∀ l : List ℚ, (∀ c ∈ l, g c = k) → (l.map g).sum = k * l.length := by
  intro l
  induction l with
  | nil => intro _; simp
  | cons c l ih =>
    intro h
    simp only [List.map_cons, List.sum_cons, List.length_cons]
    rw [h c (List.mem_cons_self _ _), ih (fun x hx => h x (List.mem_cons_of_mem _ hx))]
    ring

set_option maxRecDepth 8000 in
theorem natRepr_length_bounds : ∀ n : ℕ, n < 101 → 1 ≤ (Nat.repr n).length ∧ (Nat.repr n).length ≤ 3 := by
  decide

/-- A tick whose only event is the host reading register 2 (capacity),
from a pack whose cells all sit at 3.44 V so the capacity is 5. -/
def envCap : Env :=
  { cellRead := fun _ => List.replicate 21 (86/25), tempRead := fun _ => [],
    cpuTemp := fun _ => 0, uart := some (2, ""), fstr := fun _ => "" }

set_option maxRecDepth 8000 in
/-- Claim C8 counterexample: at a reachable state with capacity 5 the
capacity read answers with the single byte 53 (the ASCII text 5), not
with a 2-character zero-padded field: the source writes str(capacity)
with no padding at all for register 2. -/
theorem capacity_width_cex :
    Reachable (update envCap (initState (List.replicate 21 (86/25)) 0 1))
      ∧ (update envCap (initState (List.replicate 21 (86/25)) 0 1)).uartOut = [53]
      ∧ ((update envCap (initState (List.replicate 21 (86/25)) 0 1)).uartOut).length ≠ 2 :=
  ⟨Reachable.step _ _ (Reachable.init _ _ _), by decide, by decide⟩

/-- Claim C8 amended: every read response is ASCII decimal text; the
float registers (total voltage, mean voltage, each cell line, each
temperature line) are right-padded with literal ASCII zero characters
to their per-register width (7 or 5) so the 20 cell lines occupy 160
bytes and 5 temperature lines 30 bytes (8 and 6 bytes per line
including the newline) whenever the rendered values fit the width, and
the status register is exactly one byte 49 or 48; the capacity
register however is transmitted unpadded, as 1 to 3 bytes of bare
decimal text for capacities 0 to 100.  Padding characters are
appended after the value text. -/
theorem serial_read_rendering :
    (∀ (fstr : ℚ → String) (s : BMSState),
      ((readCmd fstr 1 s).uartOut = s.uartOut ++ pad0 7 (fstr s.battVoltage))
      ∧ ((fstr s.battVoltage).length ≤ 7 → (pad0 7 (fstr s.battVoltage)).length = 7)
      ∧ ((readCmd fstr 2 s).uartOut = s.uartOut ++ strBytes (pyIntStr s.capacity))
      ∧ (0 ≤ s.capacity → s.capacity ≤ 100 →
          1 ≤ (strBytes (pyIntStr s.capacity)).length
            ∧ (strBytes (pyIntStr s.capacity)).length ≤ 3)
      ∧ ((readCmd fstr 3 s).uartOut = s.uartOut ++ pad0 7 (fstr s.meanVoltage))
      ∧ (s.cells.length = 20 → (∀ c ∈ s.cells, (fstr c).length ≤ 7) →
          ((readCmd fstr 4 s).uartOut).length = s.uartOut.length + 160)
      ∧ (s.temps.length = 5 → (∀ c ∈ s.temps, (fstr c).length ≤ 5) →
          ((readCmd fstr 5 s).uartOut).length = s.uartOut.length + 30)
      ∧ ((readCmd fstr 6 s).uartOut = s.uartOut ++ [if s.mode = 2 then 49 else 48]))
    ∧ (∀ (w : ℕ) (str : String),
        (pad0 w str).take str.length = strBytes str
        ∧ ∀ b ∈ (pad0 w str).drop str.length, b = 48) := by
  constructor
  · intro fstr s
    refine ⟨rfl, ?_, rfl, ?_, rfl, ?_, ?_, rfl⟩
    · intro h; rw [pad0_length]; omega
    · intro h0 h100
      have hn : s.capacity.toNat < 101 := by omega
      have hb := natRepr_length_bounds s.capacity.toNat hn
      have he : pyIntStr s.capacity = Nat.repr s.capacity.toNat := by
        unfold pyIntStr
        rw [if_neg (not_lt.mpr h0)]
      rw [strBytes_length, he]
      exact hb
    · intro hlen hfit
      show (s.uartOut ++ s.cells.foldl (fun a c => a ++ pad0 7 (fstr c) ++ [10]) []).length
        = s.uartOut.length + 160
      rw [List.length_append, foldl_resp_length (fun c => pad0 7 (fstr c)) s.cells []]
      rw [sum_map_const (fun c => (pad0 7 (fstr c)).length + 1) 8 s.cells]
      · rw [hlen]; simp
      · intro c hc
        rw [pad0_length]
        have := hfit c hc
        omega
    · intro hlen hfit
      show (s.uartOut ++ s.temps.foldl (fun a c => a ++ pad0 5 (fstr c) ++ [10]) []).length
        = s.uartOut.length + 30
      rw [List.length_append, foldl_resp_length (fun c => pad0 5 (fstr c)) s.temps []]
      rw [sum_map_const (fun c => (pad0 5 (fstr c)).length + 1) 6 s.temps]
      · rw [hlen]; simp
      · intro c hc
        rw [pad0_length]
        have := hfit c hc
        omega
  · intro w str
    constructor
    · have h : (strBytes str).length = str.length := strBytes_length str
      rw [pad0, ← h, List.take_left]
    · intro b hb
      have h : (strBytes str).length = str.length := strBytes_length str
      rw [pad0, ← h, List.drop_left] at hb
      exact (List.eq_of_mem_replicate hb)

/-- Witness for C8 amended at concrete inputs: a 3-character rendering
pads to exactly 7 bytes, and a capacity of 5 is sent as one byte. -/
theorem serial_read_rendering_witness :
    ((fun _ : ℚ => "4.2") s0.battVoltage).length ≤ 7
      ∧ (pad0 7 ((fun _ : ℚ => "4.2") s0.battVoltage)).length = 7
      ∧ (1 ≤ (strBytes (pyIntStr ({ s0 with capacity := 5 } : BMSState).capacity)).length
        ∧ (strBytes (pyIntStr ({ s0 with capacity := 5 } : BMSState).capacity)).length ≤ 3) :=
  ⟨by decide,
   ((serial_read_rendering.1 (fun _ => "4.2") s0).2.1 (by decide)),
   ((serial_read_rendering.1 (fun _ => "4.2") { s0 with capacity := 5 }).2.2.2.1
     (by decide) (by decide))⟩
